import Mathlib

/-
Shallow embedding of src/Programming/Projekti_1/main.c.

The program targets an 8-bit AVR microcontroller and is compiled with
avr-gcc, where both int and unsigned int are 16 bits wide.  Machine
integers are therefore modelled as follows:
  * uint8_t / uint16_t values are Nat, reduced mod 256 / mod 65536 at the
    points where the C arithmetic can wrap;
  * int8_t / int16_t values are Int, wrapped with the explicit
    two's-complement maps wrap8 / wrap16 at the points where the C code
    stores into a field of that width.
The C globals and the hardware registers the specification talks about are
collected in a single SysState record; each C function becomes a function
on SysState (interrupt handlers take their hardware input as an argument).
-/

/-- Two's-complement wrap of an integer into the int16_t range. -/
def wrap16 (x : Int) : Int := (x + 32768) % 65536 - 32768

/-- Two's-complement wrap of an integer into the int8_t range. -/
def wrap8 (x : Int) : Int := (x + 128) % 256 - 128

/-- `#define TASK_MAX 2` -/
def TASK_MAX : Nat := 2

/-- `#define ADC_TASK 1` -/
def ADC_TASK : Nat := 1

/-- `#define FREQ_TASK 2` -/
def FREQ_TASK : Nat := 2

/-- One entry of `task_list`:
`struct { uint8_t task_number; int16_t delay; uint16_t interval; int8_t run; }`. -/
structure TaskEntry where
  task_number : Nat
  delay : Int
  interval : Nat
  run : Int
deriving DecidableEq

/-- The all-zero entry: C zero-initialises the global `task_list`. -/
def emptyTask : TaskEntry := ⟨0, 0, 0, 0⟩

/-- The C globals and the hardware registers the claims mention. -/
structure SysState where
  task_list : List TaskEntry
  conversion_result : Nat
  frequency_control : Nat
  ocr1a : Nat
  admux : Nat
  adsc : Bool
  sleep_standby : Bool
  sleep_enabled : Bool
  int_enabled : Bool
  serial_out : List Char
deriving DecidableEq

/-- State at the start of `main`: zero-initialised globals except
`frequency_control = 283`, hardware registers cleared, nothing sent yet. -/
def initState : SysState :=
  { task_list := [emptyTask, emptyTask]
    conversion_result := 0
    frequency_control := 283
    ocr1a := 0
    admux := 0
    adsc := false
    sleep_standby := false
    sleep_enabled := false
    int_enabled := false
    serial_out := [] }

/-- Body of the per-slot work of `update()` for one occupied slot check:
if there is a task and its delay is 0, increment `run` (int8_t) and, for a
periodic task, reload `delay` from `interval` (uint16_t stored into
int16_t); otherwise decrement `delay`. -/
def updateTask (t : TaskEntry) : TaskEntry :=
  if t.task_number ≠ 0 then
    if t.delay = 0 then
      let t1 := { t with run := wrap8 (t.run + 1) }
      if t.interval ≠ 0 then { t1 with delay := wrap16 (t.interval : Int) } else t1
    else
      { t with delay := wrap16 (t.delay - 1) }
  else t

/-- `update()`: the for loop applies the per-slot step to every slot. -/
def update (s : SysState) : SysState :=
  { s with task_list := s.task_list.map updateTask }

/-- Write to `task_list[i]` through a field-updating function; out-of-range
indices leave the list unchanged (the program only uses indices 0 and 1). -/
def listModify (f : TaskEntry → TaskEntry) : Nat → List TaskEntry → List TaskEntry
  | _, [] => []
  | 0, t :: ts => f t :: ts
  | i + 1, t :: ts => t :: listModify f i ts

/-- `add_task(number, task_number, delay, interval)`: stores the identifier,
the delay and the interval of slot `number`; the int16_t `interval`
argument is converted to the uint16_t field. `run` is not touched. -/
def add_task (ts : List TaskEntry) (number : Nat) (tn : Nat) (delay : Int)
    (interval : Int) : List TaskEntry :=
  listModify
    (fun t => { t with task_number := tn, delay := delay,
                       interval := (interval % 65536).toNat }) number ts

/-- Loop body of `init_tasks()`: on every iteration the slot at `index` has
its `task_number` cleared and then both tasks are (re-)registered. -/
def init_loop : Nat → Nat → List TaskEntry → List TaskEntry
  | 0, _, ts => ts
  | rem + 1, index, ts =>
    init_loop rem (index + 1)
      (add_task
        (add_task (listModify (fun t => { t with task_number := 0 }) index ts)
          0 ADC_TASK 0 100)
        1 FREQ_TASK 50 100)

/-- `init_tasks()`: runs the loop for `index = 0 .. TASK_MAX-1`. -/
def init_tasks (ts : List TaskEntry) : List TaskEntry := init_loop TASK_MAX 0 ts

/-- `task_1()`: selects channel ADC0 (`ADMUX = (ADMUX & 0xF0) | (0x00 & 0x0F)`)
and starts a conversion (`ADCSRA |= (1<<ADSC)`). -/
def task_1 (s : SysState) : SysState :=
  { s with admux := (s.admux &&& 240) ||| (0 &&& 15), adsc := true }

/-- ASCII prefix `"Frequency is "` (the global `msg`). -/
def msgChars : List Char := "Frequency is ".toList

/-- ASCII suffix `" Hz\r\n"` (the global `end_msg`). -/
def endChars : List Char := " Hz\r\n".toList

/-- A digit value rendered as its ASCII character: `d + '0'`. -/
def digitChar (d : Nat) : Char := Char.ofNat (d + 48)

/-- The do-while loop of `task_2`, with explicit fuel (any fuel at least the
number of decimal digits gives the loop's exact behaviour): it emits
`n % 10`, replaces `n` by `n / 10`, and repeats while the new value is
positive.  Returns the emitted digit values (least significant first) and
the final value left in `conversion_result`. -/
def convLoopF : Nat → Nat → List Nat × Nat
  | 0, n => ([], n)
  | fuel + 1, n =>
    if 0 < n / 10 then
      ((n % 10) :: (convLoopF fuel (n / 10)).1, (convLoopF fuel (n / 10)).2)
    else ([n % 10], n / 10)

/-- The do-while loop of `task_2` on `conversion_result`; `n + 1` units of
fuel always suffice because the value strictly shrinks every iteration. -/
def convLoop (n : Nat) : List Nat × Nat := convLoopF (n + 1) n

/-- The characters of `str` after the in-place reversal in `task_2`. -/
def report_digits (cr : Nat) : List Char := ((convLoop cr).1.map digitChar).reverse

/-- `task_2()`: sends `msg`, converts `conversion_result` to a digit string
(destroying `conversion_result` in the process: the loop divides the shared
variable down in place), reverses it, then sends it and `end_msg`. -/
def task_2 (s : SysState) : SysState :=
  { s with
      serial_out := s.serial_out ++ msgChars ++ report_digits s.conversion_result
                      ++ endChars
      conversion_result := (convLoop s.conversion_result).2 }

/-- Everything one call of `task_2` writes to the serial port. -/
def report_output (cr : Nat) : List Char := msgChars ++ report_digits cr ++ endChars

/-- The bytes a single invocation of `task_2` transmits from state `s`. -/
def emitted (s : SysState) : List Char :=
  (task_2 s).serial_out.drop s.serial_out.length

/-- The body selection of `task_manager()`: `ADC_TASK` runs `task_1`,
`FREQ_TASK` runs `task_2`, any other identifier runs nothing.  The first
component records the invocation (slot index, task identifier) so that
"invoked exactly once" is observable. -/
def dispatch_body (index : Nat) (tn : Nat) (s : SysState) :
    List (Nat × Nat) × SysState :=
  if tn = ADC_TASK then ([(index, ADC_TASK)], task_1 s)
  else if tn = FREQ_TASK then ([(index, FREQ_TASK)], task_2 s)
  else ([], s)

/-- One iteration of the `task_manager()` loop: if the slot is occupied and
`run > 0`, run the associated body and decrement `run` (int8_t). -/
def dispatch_slot (index : Nat) (s : SysState) : List (Nat × Nat) × SysState :=
  let t := s.task_list.getD index emptyTask
  if t.task_number ≠ 0 then
    if 0 < t.run then
      ((dispatch_body index t.task_number s).1,
       { (dispatch_body index t.task_number s).2 with
           task_list :=
             listModify (fun u => { u with run := wrap8 (u.run - 1) }) index
               (dispatch_body index t.task_number s).2.task_list })
    else ([], s)
  else ([], s)

/-- The `task_manager()` for loop over the slots. -/
def manager_loop : Nat → Nat → SysState → List (Nat × Nat) × SysState
  | 0, _, s => ([], s)
  | rem + 1, index, s =>
    ((dispatch_slot index s).1
        ++ (manager_loop rem (index + 1) (dispatch_slot index s).2).1,
     (manager_loop rem (index + 1) (dispatch_slot index s).2).2)

/-- `task_manager()`: one dispatch pass over the whole table. -/
def task_manager (s : SysState) : List (Nat × Nat) × SysState :=
  manager_loop TASK_MAX 0 s

/-- `set_sleep_mode(SLEEP_MODE_STANDBY)`. -/
def set_sleep_mode (s : SysState) : SysState := { s with sleep_standby := true }

/-- `cli()`. -/
def cli (s : SysState) : SysState := { s with int_enabled := false }

/-- `sei()`. -/
def sei (s : SysState) : SysState := { s with int_enabled := true }

/-- `sleep_enable()`. -/
def sleep_enable (s : SysState) : SysState := { s with sleep_enabled := true }

/-- `sleep_disable()`. -/
def sleep_disable (s : SysState) : SysState := { s with sleep_enabled := false }

/-- `ISR(PCINT2_vect)`: the wake handler has an empty body. -/
def pcint2_isr (s : SysState) : SysState := s

/-- `sleep_cpu()`: the CPU halts until an interrupt arrives; in the wake
scenario of the specification the pin-change wake interrupt fires, its
handler runs, and execution resumes after the sleep instruction. -/
def sleep_cpu_wake (s : SysState) : SysState := pcint2_isr s

/-- `go_sleep()` followed by the wake interrupt and resumption. -/
def go_sleep (s : SysState) : SysState :=
  sleep_disable (sleep_cpu_wake (sei (sleep_enable (cli (set_sleep_mode s)))))

/-- `ISR(ADC_vect)`: stores the ADC data register into `conversion_result`,
clamps it into [50, 1000], then computes
`frequency_control = 124 + ((2499-124)*conversion_result) / 1000` — on
avr-gcc `int` and `unsigned int` are 16 bits, so the multiplication is
performed modulo 2^16 — and writes the result to `OCR1A` as well. -/
def adc_isr (s : SysState) (adc : Nat) : SysState :=
  let cr0 := adc % 65536
  let cr := if cr0 < 50 then 50 else if 1000 < cr0 then 1000 else cr0
  let fc := (124 + ((2499 - 124) * cr) % 65536 / 1000) % 65536
  { s with conversion_result := cr, frequency_control := fc, ocr1a := fc }

/-- One scheduler tick on a single task slot followed by the dispatcher
draining the pending-run count to zero (the no-backlog assumption of the
specification). -/
def drained (t : TaskEntry) : TaskEntry := { t with run := 0 }

/-- The slot after `n` ticks, each tick followed by a drain. -/
def afterTicks (t0 : TaskEntry) : Nat → TaskEntry
  | 0 => t0
  | n + 1 => drained (updateTask (afterTicks t0 n))

/-- Whether the task becomes runnable at tick `n` (ticks are counted from 1;
the pending-run count is incremented by the `n`-th call of `update`). -/
def firesAt (t0 : TaskEntry) (n : Nat) : Bool :=
  decide (0 < (updateTask (afterTicks t0 (n - 1))).run)

/-- Closed form for the remaining delay of a task registered with delay `d`
and interval `k` after `n` drained ticks (proved below). -/
def delayAt (d k n : Nat) : Nat :=
  if n ≤ d then d - n else k - (n - d - 1) % (k + 1)

/-! ## Helper lemmas -/

theorem wrap16_eq_of (x : Int) (h1 : -32768 ≤ x) (h2 : x ≤ 32767) : wrap16 x = x := by
  unfold wrap16; omega

theorem wrap8_eq_of (x : Int) (h1 : -128 ≤ x) (h2 : x ≤ 127) : wrap8 x = x := by
  unfold wrap8; omega

theorem convLoopF_spec : ∀ (fuel n : Nat), 0 < fuel → n < 10 ^ fuel →
    (convLoopF fuel n).2 = 0 ∧ (convLoopF fuel n).1 ≠ [] ∧
    (∀ d ∈ (convLoopF fuel n).1, d < 10) ∧
    ((convLoopF fuel n).1.foldr (fun d a => 10 * a + d) 0 = n) ∧
    (n ≠ 0 → (convLoopF fuel n).1.getLast? ≠ some 0) := by
  intro fuel
  induction fuel with
  | zero => intro n h; omega
  | succ fuel ih =>
    intro n _ hlt
    by_cases hdiv : 0 < n / 10
    · have hn10 : 10 ≤ n := by omega
      have hfuelpos : 0 < fuel := by
        rcases Nat.eq_zero_or_pos fuel with h0 | h
        · subst h0; simp at hlt; omega
        · exact h
      have hrec : n / 10 < 10 ^ fuel := by
        rw [Nat.div_lt_iff_lt_mul (by omega : 0 < 10)]
        calc n < 10 ^ (fuel + 1) := hlt
          _ = 10 ^ fuel * 10 := by rw [pow_succ]
      obtain ⟨ih2, ihne, ihd, ihv, ihl⟩ := ih (n / 10) hfuelpos hrec
      simp only [convLoopF, if_pos hdiv]
      refine ⟨ih2, by simp, ?_, ?_, ?_⟩
      · intro d hd
        rcases List.mem_cons.mp hd with h | h
        · subst h; exact Nat.mod_lt n (by omega)
        · exact ihd d h
      · simp only [List.foldr_cons, ihv]; omega
      · intro _
        rcases hL : (convLoopF fuel (n / 10)).1 with _ | ⟨b, L'⟩
        · exact absurd hL ihne
        · rw [List.getLast?_cons_cons]
          rw [hL] at ihl
          exact ihl (by omega)
    · have hn10 : n < 10 := by omega
      simp only [convLoopF, if_neg hdiv]
      refine ⟨by omega, by simp, ?_, ?_, ?_⟩
      · intro d hd; simp at hd; subst hd; exact Nat.mod_lt n (by omega) |>.trans_le (by omega)
      · simp; omega
      · intro hn0; simp; omega

theorem convLoop_spec (n : Nat) :
    (convLoop n).2 = 0 ∧ (convLoop n).1 ≠ [] ∧
    (∀ d ∈ (convLoop n).1, d < 10) ∧
    ((convLoop n).1.foldr (fun d a => 10 * a + d) 0 = n) ∧
    (n ≠ 0 → (convLoop n).1.getLast? ≠ some 0) := by
  have h1 : n < 10 ^ n := Nat.lt_pow_self (by omega) n
  have h2 : (10 : Nat) ^ n ≤ 10 ^ (n + 1) := Nat.pow_le_pow_right (by omega) (by omega)
  exact convLoopF_spec (n + 1) n (by omega) (by omega)

theorem task_2_serial (s : SysState) :
    (task_2 s).serial_out = s.serial_out ++ report_output s.conversion_result := by
  simp [task_2, report_output, List.append_assoc]

theorem emitted_eq (s : SysState) : emitted s = report_output s.conversion_result := by
  unfold emitted
  rw [task_2_serial, List.drop_left]

/-! ## Claims -/

/-- Claim C1 (code_bug evidence): on the AVR target the Conversion
Completion Handler does NOT implement `124 + (2499-124)*clamped/1000` over
the integers: the 16-bit multiplication wraps, so the raw reading 1023
(clamped to 1000) yields 139, not the 2499 the claim (and the derivation in
the code's own comments) requires. -/
theorem C1_frequency_overflow_at_1023 :
    (adc_isr initState 1023).conversion_result = 1000 ∧
    (adc_isr initState 1023).frequency_control = 139 ∧
    (adc_isr initState 1023).frequency_control ≠ 2499 := by decide

/-- Claim C3, counterexample: a task with interval 0 whose delay has
reached zero is made runnable by one tick (run becomes 1) and is then made
runnable AGAIN by the next tick (run becomes 2), contradicting "no later
on_tick increments its pending-run count again". -/
theorem C3_one_shot_fires_again :
    (updateTask ⟨1, 0, 0, 0⟩).run = 1 ∧
    (updateTask (updateTask ⟨1, 0, 0, 0⟩)).run = 2 := by decide

/-- Claim C3, amended: a task registered with interval zero is rescheduled
implicitly: once its remaining delay is zero, EVERY call of the scheduler
tick increments its pending-run count by one and leaves the delay at zero,
so it fires on every subsequent tick without being re-registered. -/
theorem C3_zero_interval_refires :
    ∀ t : TaskEntry, t.task_number ≠ 0 → t.interval = 0 → t.delay = 0 →
      -128 ≤ t.run → t.run ≤ 126 →
      (updateTask t).run = t.run + 1 ∧ (updateTask t).delay = 0 := by
  intro t h1 h2 h3 h4 h5
  simp only [updateTask, if_pos h1, h3, if_pos rfl, h2]
  simp [wrap8_eq_of (t.run + 1) (by omega) (by omega), h3]

/-- Witness for C3_zero_interval_refires at the concrete entry ⟨1,0,0,1⟩. -/
theorem C3_zero_interval_refires_witness :
    (updateTask ⟨1, 0, 0, 1⟩).run = 1 + 1 ∧ (updateTask ⟨1, 0, 0, 1⟩).delay = 0 :=
  C3_zero_interval_refires ⟨1, 0, 0, 1⟩ (by decide) rfl rfl (by decide) (by decide)

/-- Claim C8: a full sleep pass (go_sleep from the main loop, the wake
pin-change interrupt, resumption) leaves the whole task table unchanged. -/
theorem C8_sleep_preserves_task_table :
    ∀ s : SysState, (go_sleep s).task_list = s.task_list := by
  intro s; rfl

/-- Claim C9: after every invocation of the Reporting Task the shared raw
conversion result is 0: the decimal-formatting do-while loop divides the
shared variable down in place. -/
theorem C9_reporting_zeroes_conversion_result :
    ∀ s : SysState, (task_2 s).conversion_result = 0 := by
  intro s
  have h := (convLoop_spec s.conversion_result).1
  simp [task_2, h]

/-- Claim C10: after init_tasks the table is exactly slot 0 = ADC task
(identifier 1, delay 0, interval 100) and slot 1 = reporting task
(identifier 2, delay 50, interval 100), the redundant clear/re-register
iterations notwithstanding. -/
theorem C10_init_tasks_table :
    init_tasks initState.task_list =
      [⟨ADC_TASK, 0, 100, 0⟩, ⟨FREQ_TASK, 50, 100, 0⟩] := by decide

/-- Claim C5: the Frequency Control Value lies in [124, 2499] at
initialization and after every ADC completion interrupt on a raw reading
in [0, 1023] (in fact the wrapped arithmetic keeps it in [124, 189]). -/
theorem C5_frequency_control_in_range :
    (124 ≤ initState.frequency_control ∧ initState.frequency_control ≤ 2499) ∧
    ∀ (s : SysState) (r : Nat), r ≤ 1023 →
      124 ≤ (adc_isr s r).frequency_control ∧
        (adc_isr s r).frequency_control ≤ 2499 := by
  refine ⟨by decide, ?_⟩
  have key : ∀ m : Nat, m < 65536 →
      124 ≤ (124 + m / 1000) % 65536 ∧ (124 + m / 1000) % 65536 ≤ 2499 := by
    intro m hm
    have h2 : 124 + m / 1000 < 65536 := by omega
    rw [Nat.mod_eq_of_lt h2]
    omega
  intro s r hr
  simp only [adc_isr]
  split_ifs <;> exact key _ (Nat.mod_lt _ (by omega))

/-- Witness for C5_frequency_control_in_range at the raw reading 1023. -/
theorem C5_frequency_control_in_range_witness :
    124 ≤ (adc_isr initState 1023).frequency_control ∧
      (adc_isr initState 1023).frequency_control ≤ 2499 :=
  C5_frequency_control_in_range.2 initState 1023 (by decide)

/-- Claim C4, counterexample: two consecutive invocations of the Reporting
Task with nothing running between them (and the Frequency Control Value
indeed unchanged) transmit different bytes: the first call reports 500 and
zeroes the shared conversion result, so the second call reports 0. -/
theorem C4_consecutive_reports_differ :
    (task_2 (adc_isr initState 500)).frequency_control
        = (adc_isr initState 500).frequency_control ∧
    emitted (adc_isr initState 500) ≠ emitted (task_2 (adc_isr initState 500)) := by
  decide

/-- Claim C4, amended: the Reporting Task's output is a function of the one
mutable datum it reads, the shared raw conversion result; two invocations
whose starting states agree on it transmit byte-identical output.  (The
original "consecutive calls" version fails because the first call zeroes
the shared variable.) -/
theorem C4_report_deterministic :
    ∀ s t : SysState, s.conversion_result = t.conversion_result →
      emitted s = emitted t := by
  intro s t h
  rw [emitted_eq, emitted_eq, h]

/-- Witness for C4_report_deterministic: two distinct reachable states with
the same conversion result produce the same bytes. -/
theorem C4_report_deterministic_witness :
    emitted (adc_isr initState 300)
      = emitted (adc_isr (task_2 (adc_isr initState 300)) 300) :=
  C4_report_deterministic (adc_isr initState 300)
    (adc_isr (task_2 (adc_isr initState 300)) 300) (by decide)

/-! ## Scheduler timing (claim C2) -/

theorem delayAt_zero (d k : Nat) : delayAt d k 0 = d := by simp [delayAt]

theorem delayAt_le (d k n : Nat) : delayAt d k n ≤ max d k := by
  unfold delayAt
  split
  · omega
  · have := Nat.sub_le k ((n - d - 1) % (k + 1))
    omega

theorem mod_succ_eq (m k : Nat) (hk : k ≠ 0) :
    (m + 1) % (k + 1) = if m % (k + 1) = k then 0 else m % (k + 1) + 1 := by
  have h1 : (m + 1) % (k + 1) = (m % (k + 1) + 1) % (k + 1) := by
    conv_lhs => rw [Nat.add_mod]
    rw [Nat.mod_eq_of_lt (show 1 < k + 1 by omega)]
  have hr : m % (k + 1) < k + 1 := Nat.mod_lt _ (by omega)
  rw [h1]
  split
  · next h => rw [h]; exact Nat.mod_self (k + 1)
  · next h => exact Nat.mod_eq_of_lt (by omega)

theorem delayAt_succ (d k n : Nat) (hk : k ≠ 0) :
    delayAt d k (n + 1) = if delayAt d k n = 0 then k else delayAt d k n - 1 := by
  rcases Nat.lt_trichotomy n d with h | h | h
  · have h1 : n + 1 ≤ d := by omega
    have h2 : n ≤ d := by omega
    simp only [delayAt, if_pos h1, if_pos h2]
    rw [if_neg (by omega : ¬ (d - n = 0))]
    omega
  · subst h
    simp only [delayAt, if_neg (by omega : ¬ (n + 1 ≤ n)), if_pos (Nat.le_refl n)]
    rw [if_pos (by omega : n - n = 0)]
    have : n + 1 - n - 1 = 0 := by omega
    rw [this, Nat.zero_mod]
    omega
  · have h1 : ¬ (n + 1 ≤ d) := by omega
    have h2 : ¬ (n ≤ d) := by omega
    simp only [delayAt, if_neg h1, if_neg h2]
    have hm : n + 1 - d - 1 = (n - d - 1) + 1 := by omega
    rw [hm, mod_succ_eq _ _ hk]
    have hr : (n - d - 1) % (k + 1) < k + 1 := Nat.mod_lt _ (by omega)
    by_cases hx : (n - d - 1) % (k + 1) = k
    · rw [if_pos hx, if_pos (by omega)]
      omega
    · rw [if_neg hx, if_neg (by omega)]
      omega

theorem afterTicks_closed (id d k : Nat) (hid : id ≠ 0) (hk : k ≠ 0)
    (hk2 : k ≤ 32767) (hd : d ≤ 32767) :
    ∀ n, afterTicks ⟨id, (d : Int), k, 0⟩ n = ⟨id, (delayAt d k n : Int), k, 0⟩ := by
  intro n
  induction n with
  | zero => rw [delayAt_zero]; rfl
  | succ n ih =>
    show drained (updateTask (afterTicks ⟨id, (d : Int), k, 0⟩ n)) = _
    rw [ih]
    have hle := delayAt_le d k n
    rw [delayAt_succ d k n hk]
    by_cases h0 : delayAt d k n = 0
    · rw [if_pos h0]
      simp only [updateTask, h0, drained]
      rw [if_pos (by simpa using hid), if_pos (by norm_num),
        if_pos (by simpa using hk)]
      simp [wrap16_eq_of (k : Int) (by omega) (by exact_mod_cast hk2)]
    · rw [if_neg h0]
      simp only [updateTask, drained]
      rw [if_pos (by simpa using hid),
        if_neg (by simpa using h0)]
      have hcast : ((delayAt d k n : Int)) - 1 = ((delayAt d k n - 1 : Nat) : Int) := by
        omega
      rw [hcast, wrap16_eq_of _ (by omega) (by omega)]

theorem fires_iff_delay_zero (id d k n : Nat) (hid : id ≠ 0) (hk : k ≠ 0)
    (hk2 : k ≤ 32767) (hd : d ≤ 32767) :
    (firesAt ⟨id, (d : Int), k, 0⟩ n = true ↔ delayAt d k (n - 1) = 0) := by
  simp only [firesAt, decide_eq_true_eq]
  rw [afterTicks_closed id d k hid hk hk2 hd (n - 1)]
  by_cases h0 : delayAt d k (n - 1) = 0
  · simp only [updateTask, h0, if_pos (by simpa using hid)]
    rw [if_pos (by norm_num), if_pos (by simpa using hk)]
    simp only [h0, iff_true]
    decide
  · simp only [updateTask, if_pos (by simpa using hid),
      if_neg (by simpa using h0)]
    simp [h0]

theorem delayAt_eq_zero_iff (d k n : Nat) (hk : k ≠ 0) :
    delayAt d k n = 0 ↔ (d ≤ n ∧ (n - d) % (k + 1) = 0) := by
  unfold delayAt
  by_cases h : n ≤ d
  · rw [if_pos h]
    constructor
    · intro h0
      have : n = d := by omega
      subst this
      simp
    · intro h1
      omega
  · rw [if_neg h]
    have hd2 : d < n := by omega
    set m := n - d - 1 with hm_def
    rw [show n - d = m + 1 from by omega, mod_succ_eq _ _ hk]
    have hr : m % (k + 1) < k + 1 := Nat.mod_lt _ (by omega)
    by_cases hx : m % (k + 1) = k
    · rw [if_pos hx]
      constructor
      · intro _; exact ⟨by omega, rfl⟩
      · intro _; omega
    · rw [if_neg hx]
      constructor
      · intro h0; omega
      · intro h1; omega

/-- Claim C2, counterexample: for a task with initial delay 0 and interval
1, the claim predicts that the pending-run count is incremented at tick 2
(every k = 1 ticks after the first firing at tick 1); the scheduler does
not fire it then — the reload/decrement logic gives period k + 1. -/
theorem C2_claim_fails_at_two_ticks :
    ¬ ((0 + 1 ≤ 2 ∧ (2 - (0 + 1)) % 1 = 0) →
        firesAt ⟨1, (0 : Int), 1, 0⟩ 2 = true) := by decide

/-- Claim C2, amended: a task registered with initial delay d and non-zero
interval k (values representable in the int16_t delay field) first becomes
runnable exactly d+1 ticks after scheduling begins and then every k+1
ticks thereafter (not every k), assuming the dispatcher drains the
pending-run count between ticks. -/
theorem C2_fires_every_interval_plus_one :
    ∀ (id d k n : Nat), id ≠ 0 → k ≠ 0 → k ≤ 32767 → d ≤ 32767 → 1 ≤ n →
      (firesAt ⟨id, (d : Int), k, 0⟩ n = true ↔
        (d + 1 ≤ n ∧ (n - (d + 1)) % (k + 1) = 0)) := by
  intro id d k n hid hk hk2 hd hn
  rw [fires_iff_delay_zero id d k n hid hk hk2 hd,
    delayAt_eq_zero_iff d k (n - 1) hk]
  have hsub : n - 1 - d = n - (d + 1) := by omega
  rw [hsub]
  constructor
  · intro ⟨a, b⟩; exact ⟨by omega, b⟩
  · intro ⟨a, b⟩; exact ⟨by omega, b⟩

/-- Witness for C2_fires_every_interval_plus_one: delay 0, interval 1,
tick 3 (the second firing, one reload period after tick 1). -/
theorem C2_fires_witness :
    firesAt ⟨1, (0 : Int), 1, 0⟩ 3 = true ↔
      (0 + 1 ≤ 3 ∧ (3 - (0 + 1)) % (1 + 1) = 0) :=
  C2_fires_every_interval_plus_one 1 0 1 3 (by decide) (by decide) (by decide)
    (by decide) (by decide)

/-! ## Dispatcher (claim C6) -/

theorem listModify_length (f : TaskEntry → TaskEntry) :
    ∀ (i : Nat) (l : List TaskEntry), (listModify f i l).length = l.length := by
  intro i l
  induction l generalizing i with
  | nil => cases i <;> rfl
  | cons t ts ih =>
    cases i with
    | zero => rfl
    | succ i => simpa [listModify] using ih i

theorem listModify_getD_ne (f : TaskEntry → TaskEntry) :
    ∀ (i j : Nat) (l : List TaskEntry) (e : TaskEntry), j ≠ i →
      (listModify f i l).getD j e = l.getD j e := by
  intro i j l
  induction l generalizing i j with
  | nil => intro e _; cases i <;> rfl
  | cons t ts ih =>
    intro e h
    cases i with
    | zero =>
      cases j with
      | zero => exact absurd rfl h
      | succ j => rfl
    | succ i =>
      cases j with
      | zero => rfl
      | succ j =>
        show (listModify f (i + 1) (t :: ts)).getD (j + 1) e = ts.getD j e
        simp only [listModify, List.getD_cons_succ]
        exact ih i j e (by omega)

theorem listModify_getD_self (f : TaskEntry → TaskEntry) :
    ∀ (i : Nat) (l : List TaskEntry) (e : TaskEntry), i < l.length →
      (listModify f i l).getD i e = f (l.getD i e) := by
  intro i l
  induction l generalizing i with
  | nil => intro e h; simp at h
  | cons t ts ih =>
    intro e h
    cases i with
    | zero => rfl
    | succ i =>
      show (listModify f (i + 1) (t :: ts)).getD (i + 1) e = f (ts.getD i e)
      simp only [listModify, List.getD_cons_succ]
      exact ih i e (by simpa using h)

theorem dispatch_body_tl (i tn : Nat) (s : SysState) :
    (dispatch_body i tn s).2.task_list = s.task_list := by
  unfold dispatch_body
  split_ifs <;> rfl

theorem dispatch_body_ev (i tn : Nat) (s : SysState) :
    (dispatch_body i tn s).1 = [] ∨ (dispatch_body i tn s).1 = [(i, tn)] := by
  unfold dispatch_body
  split_ifs with h1 h2
  · right; rw [h1]
  · right; rw [h2]
  · left; rfl

theorem dispatch_slot_ev (i : Nat) (s : SysState) :
    (dispatch_slot i s).1 = [] ∨ ∃ tn, (dispatch_slot i s).1 = [(i, tn)] := by
  simp only [dispatch_slot]
  split_ifs
  · rcases dispatch_body_ev i (s.task_list.getD i emptyTask).task_number s with h | h
    · left; exact h
    · right; exact ⟨_, h⟩
  · left; rfl
  · left; rfl

theorem dispatch_slot_tl_length (i : Nat) (s : SysState) :
    (dispatch_slot i s).2.task_list.length = s.task_list.length := by
  simp only [dispatch_slot]
  split_ifs <;> simp [listModify_length, dispatch_body_tl]

theorem dispatch_slot_getD_ne (i j : Nat) (s : SysState) (e : TaskEntry)
    (h : j ≠ i) :
    (dispatch_slot i s).2.task_list.getD j e = s.task_list.getD j e := by
  simp only [dispatch_slot]
  split_ifs
  · show (listModify (fun u => { u with run := wrap8 (u.run - 1) }) i
        (dispatch_body i (s.task_list.getD i emptyTask).task_number s).2.task_list).getD j e
      = s.task_list.getD j e
    rw [dispatch_body_tl, listModify_getD_ne _ _ _ _ _ h]
  · rfl
  · rfl

theorem dispatch_slot_occupied (i : Nat) (s : SysState)
    (h1 : (s.task_list.getD i emptyTask).task_number ≠ 0)
    (h2 : 0 < (s.task_list.getD i emptyTask).run) :
    dispatch_slot i s =
      ((dispatch_body i (s.task_list.getD i emptyTask).task_number s).1,
       { (dispatch_body i (s.task_list.getD i emptyTask).task_number s).2 with
           task_list :=
             listModify (fun u => { u with run := wrap8 (u.run - 1) }) i
               (dispatch_body i (s.task_list.getD i emptyTask).task_number s).2.task_list }) := by
  simp only [dispatch_slot]
  rw [if_pos h1, if_pos h2]

theorem dispatch_slot_empty (i : Nat) (s : SysState)
    (h : (s.task_list.getD i emptyTask).task_number = 0) :
    dispatch_slot i s = ([], s) := by
  simp only [dispatch_slot]
  rw [if_neg (by simpa using h)]

theorem task_manager_eq (s : SysState) :
    task_manager s =
      ((dispatch_slot 0 s).1 ++ (dispatch_slot 1 (dispatch_slot 0 s).2).1,
       (dispatch_slot 1 (dispatch_slot 0 s).2).2) := by
  have h : task_manager s =
      ((dispatch_slot 0 s).1 ++ ((dispatch_slot 1 (dispatch_slot 0 s).2).1 ++ []),
       (dispatch_slot 1 (dispatch_slot 0 s).2).2) := rfl
  rw [h, List.append_nil]

/-- Claim C6: in one dispatch pass, every slot holding a task identifier
with an associated body (ADC_TASK or FREQ_TASK) and a positive pending-run
count has that body invoked exactly once and its pending-run count
decremented by exactly one, and a slot with task identifier 0 is never
dispatched and is left untouched. -/
theorem C6_dispatch_exactly_once :
    ∀ (t0 t1 : TaskEntry) (s : SysState), s.task_list = [t0, t1] →
      t0.run ≤ 127 → t1.run ≤ 127 →
      (((t0.task_number = ADC_TASK ∨ t0.task_number = FREQ_TASK) → 0 < t0.run →
          ((task_manager s).1.count (0, t0.task_number) = 1 ∧
           ((task_manager s).2.task_list.getD 0 emptyTask).run = t0.run - 1)) ∧
       (t0.task_number = 0 →
          ((∀ tn, (0, tn) ∉ (task_manager s).1) ∧
           (task_manager s).2.task_list.getD 0 emptyTask = t0)) ∧
       ((t1.task_number = ADC_TASK ∨ t1.task_number = FREQ_TASK) → 0 < t1.run →
          ((task_manager s).1.count (1, t1.task_number) = 1 ∧
           ((task_manager s).2.task_list.getD 1 emptyTask).run = t1.run - 1)) ∧
       (t1.task_number = 0 →
          ((∀ tn, (1, tn) ∉ (task_manager s).1) ∧
           (task_manager s).2.task_list.getD 1 emptyTask = t1))) := by
  intro t0 t1 s hts h0le h1le
  have hg0 : s.task_list.getD 0 emptyTask = t0 := by rw [hts]; rfl
  have hg1 : s.task_list.getD 1 emptyTask = t1 := by rw [hts]; rfl
  have hlen : s.task_list.length = 2 := by rw [hts]; rfl
  have hs2g1 : (dispatch_slot 0 s).2.task_list.getD 1 emptyTask = t1 := by
    rw [dispatch_slot_getD_ne 0 1 s emptyTask (by omega), hg1]
  have hs2len : (dispatch_slot 0 s).2.task_list.length = 2 := by
    rw [dispatch_slot_tl_length, hlen]
  rw [task_manager_eq]
  refine ⟨?_, ?_, ?_, ?_⟩
  · -- slot 0, occupied with a known body
    intro htn hrun
    have hocc0 := dispatch_slot_occupied 0 s
      (by rw [hg0]; rcases htn with h | h <;> rw [h] <;> decide)
      (by rw [hg0]; exact hrun)
    constructor
    · rw [List.count_append, hocc0]
      have hbody : (dispatch_body 0 (s.task_list.getD 0 emptyTask).task_number s).1
          = [(0, t0.task_number)] := by
        rw [hg0]
        rcases htn with h | h <;> rw [h] <;> rfl
      rw [hbody]
      have hother : ((dispatch_slot 1 (dispatch_slot 0 s).2).1).count
          (0, t0.task_number) = 0 := by
        rcases dispatch_slot_ev 1 (dispatch_slot 0 s).2 with hev | ⟨tn, hev⟩ <;>
          rw [hev] <;> simp
      rw [hocc0] at hother
      rw [hother]
      simp
    · rw [dispatch_slot_getD_ne 1 0 _ emptyTask (by omega), hocc0]
      show ((listModify (fun u => { u with run := wrap8 (u.run - 1) }) 0
          (dispatch_body 0 (s.task_list.getD 0 emptyTask).task_number s).2.task_list).getD
            0 emptyTask).run = t0.run - 1
      rw [listModify_getD_self _ 0 _ emptyTask
          (by rw [dispatch_body_tl, hlen]; omega), dispatch_body_tl, hg0]
      show wrap8 (t0.run - 1) = t0.run - 1
      exact wrap8_eq_of _ (by omega) (by omega)
  · -- slot 0 empty: never dispatched, untouched
    intro h
    have hemp := dispatch_slot_empty 0 s (by rw [hg0]; exact h)
    constructor
    · intro tn hmem
      rw [hemp] at hmem
      simp only [List.nil_append] at hmem
      rcases dispatch_slot_ev 1 s with hev | ⟨tn2, hev⟩ <;> rw [hev] at hmem <;>
        simp at hmem
    · rw [dispatch_slot_getD_ne 1 0 _ emptyTask (by omega), hemp, hg0]
  · -- slot 1, occupied with a known body
    intro htn hrun
    have hocc1 := dispatch_slot_occupied 1 (dispatch_slot 0 s).2
      (by rw [hs2g1]; rcases htn with h | h <;> rw [h] <;> decide)
      (by rw [hs2g1]; exact hrun)
    constructor
    · rw [List.count_append, hocc1]
      have hbody : (dispatch_body 1
            ((dispatch_slot 0 s).2.task_list.getD 1 emptyTask).task_number
            (dispatch_slot 0 s).2).1 = [(1, t1.task_number)] := by
        rw [hs2g1]
        rcases htn with h | h <;> rw [h] <;> rfl
      rw [hbody]
      have hother : ((dispatch_slot 0 s).1).count (1, t1.task_number) = 0 := by
        rcases dispatch_slot_ev 0 s with hev | ⟨tn, hev⟩ <;> rw [hev] <;> simp
      rw [hother]
      simp
    · rw [hocc1]
      show ((listModify (fun u => { u with run := wrap8 (u.run - 1) }) 1
          (dispatch_body 1
            ((dispatch_slot 0 s).2.task_list.getD 1 emptyTask).task_number
            (dispatch_slot 0 s).2).2.task_list).getD 1 emptyTask).run = t1.run - 1
      rw [listModify_getD_self _ 1 _ emptyTask
          (by rw [dispatch_body_tl, hs2len]; omega), dispatch_body_tl, hs2g1]
      show wrap8 (t1.run - 1) = t1.run - 1
      exact wrap8_eq_of _ (by omega) (by omega)
  · -- slot 1 empty: never dispatched, untouched
    intro h
    have hemp := dispatch_slot_empty 1 (dispatch_slot 0 s).2 (by rw [hs2g1]; exact h)
    constructor
    · intro tn hmem
      rw [hemp] at hmem
      simp only [List.append_nil] at hmem
      rcases dispatch_slot_ev 0 s with hev | ⟨tn2, hev⟩ <;> rw [hev] at hmem <;>
        simp at hmem
    · rw [hemp, hs2g1]

/-- Witness for C6_dispatch_exactly_once: slot 0 holds the ADC task with
pending-run count 2, slot 1 is empty. -/
theorem C6_dispatch_exactly_once_witness :
    ((task_manager { initState with task_list := [⟨1, 0, 100, 2⟩, ⟨0, 0, 0, 3⟩] }).1.count
        (0, 1) = 1 ∧
     ((task_manager { initState with task_list := [⟨1, 0, 100, 2⟩, ⟨0, 0, 0, 3⟩] }).2.task_list.getD
        0 emptyTask).run = 2 - 1) ∧
    ((∀ tn, (1, tn) ∉
        (task_manager { initState with task_list := [⟨1, 0, 100, 2⟩, ⟨0, 0, 0, 3⟩] }).1) ∧
     (task_manager { initState with task_list := [⟨1, 0, 100, 2⟩, ⟨0, 0, 0, 3⟩] }).2.task_list.getD
        1 emptyTask = ⟨0, 0, 0, 3⟩) :=
  have h := C6_dispatch_exactly_once ⟨1, 0, 100, 2⟩ ⟨0, 0, 0, 3⟩
    { initState with task_list := [⟨1, 0, 100, 2⟩, ⟨0, 0, 0, 3⟩] } rfl (by decide) (by decide)
  ⟨h.1 (Or.inl rfl) (by decide), h.2.2.2 rfl⟩

/-- Claim C7, counterexample: in the reachable state after an ADC
completion with raw reading 500 the Frequency Control Value is 131, but
the Reporting Task transmits "Frequency is 500 Hz": the number it renders
is the shared raw conversion result, not the Frequency Control Value. -/
theorem C7_report_not_frequency_control :
    (adc_isr initState 500).frequency_control = 131 ∧
    emitted (adc_isr initState 500) = "Frequency is 500 Hz\r\n".toList ∧
    (convLoop (adc_isr initState 500).conversion_result).1.reverse.foldl
        (fun a d => 10 * a + d) 0 ≠ (adc_isr initState 500).frequency_control := by
  decide

/-- Claim C7, amended: every report is exactly "Frequency is ", then the
shared raw conversion result (not the Frequency Control Value) rendered as
decimal digits most significant first with no leading zero when the value
is non-zero, then " Hz\r\n". -/
theorem C7_report_renders_conversion_result :
    ∀ s : SysState,
      emitted s = msgChars
          ++ ((convLoop s.conversion_result).1.reverse.map digitChar) ++ endChars
      ∧ (convLoop s.conversion_result).1.reverse ≠ []
      ∧ (∀ d ∈ (convLoop s.conversion_result).1.reverse, d < 10)
      ∧ (convLoop s.conversion_result).1.reverse.foldl (fun a d => 10 * a + d) 0
          = s.conversion_result
      ∧ (s.conversion_result ≠ 0 →
          (convLoop s.conversion_result).1.reverse.head? ≠ some 0) := by
  intro s
  obtain ⟨h2, hne, hd, hv, hl⟩ := convLoop_spec s.conversion_result
  refine ⟨?_, ?_, ?_, ?_, ?_⟩
  · rw [emitted_eq]
    simp only [report_output, report_digits]
    rw [List.map_reverse]
  · simpa using hne
  · intro d hdm
    exact hd d (List.mem_reverse.mp hdm)
  · rw [List.foldl_reverse]
    exact hv
  · intro h0
    rw [List.head?_reverse]
    exact hl h0

/-- Witness for C7_report_renders_conversion_result at the state reached by
an ADC completion with raw reading 500. -/
theorem C7_report_renders_witness :
    (convLoop (adc_isr initState 500).conversion_result).1.reverse.head? ≠ some 0 ∧
    emitted (adc_isr initState 500) = msgChars
        ++ ((convLoop (adc_isr initState 500).conversion_result).1.reverse.map digitChar)
        ++ endChars :=
  ⟨(C7_report_renders_conversion_result (adc_isr initState 500)).2.2.2.2 (by decide),
   (C7_report_renders_conversion_result (adc_isr initState 500)).1⟩
